import Mathlib

/-
Verification of the trend-detection backend of this repository: a shallow
embedding of `backend/app/services/trend_service.py`,
`backend/app/services/keyword_extraction_service.py` and
`backend/app/services/google_trends_service.py`.

Modelling conventions:
  * Python floats are modelled as rationals (`ℚ`).
  * Datetimes are modelled as integers counting days, so `timedelta(days=k)`
    is subtraction of `k`; ISO-string comparisons done by the database
    (`gte` / `lt` on `created_at` / `detected_at`) become integer comparisons.
  * Python's `round(x, 2)` is modelled by `round2` below, rounding to the
    nearest multiple of 1/100 (half-up at exact ties; Python uses
    round-half-even at exact ties, and no claim checked here exercises a tie).
  * Database rows are modelled as Lean structures; UUIDs become `Nat` keys.
  * I/O failure (Supabase queries, the pytrends client) is modelled by an
    environment of `Except`-valued primitive results, and every
    `try: ... except: return d` of the source becomes `pytry body d`.
-/

/-- Python's `round(x, 2)`: round to the nearest multiple of 1/100. -/
def round2 (x : ℚ) : ℚ := ((round (x * 100) : ℤ) : ℚ) / 100

/-- `TrendService.calculate_trend_score` (trend_service.py, lines 21-61).
The local bindings `normalized_mentions` / `normalized_velocity` of the source
are inlined; `normalized_velocity` is `0` when `velocity` is falsy (i.e. zero),
mirroring `... if velocity else 0`.  The `try/except` around the body is dead
code here: the body is pure arithmetic. -/
def calculate_trend_score (content_mentions : ℤ) (google_trends_score : ℚ)
    (velocity : ℚ) : ℚ :=
  round2 (min ((content_mentions : ℚ) / 50 * 100) 100 * (4/10) +
    google_trends_score * (4/10) +
    (if velocity ≠ 0 then min (|velocity| / 5 * 100) 100 else 0) * (2/10))

/-- The score formula as the specification words it:
`round(0.4*min(mentions/50*100, 100) + 0.4*google + 0.2*min(|velocity|/5*100, 100), 2)`. -/
def specTrendScore (content_mentions : ℤ) (google_trends_score : ℚ)
    (velocity : ℚ) : ℚ :=
  round2 ((4/10) * min ((content_mentions : ℚ) / 50 * 100) 100 +
    (4/10) * google_trends_score + (2/10) * min (|velocity| / 5 * 100) 100)

theorem round2_nonneg {x : ℚ} (hx : 0 ≤ x) : 0 ≤ round2 x := by
  unfold round2
  have h : (0 : ℤ) ≤ round (x * 100) := by
    rw [round_eq]
    calc (0 : ℤ) = ⌊(1 : ℚ) / 2⌋ := by norm_num
      _ ≤ ⌊x * 100 + 1 / 2⌋ := by
          apply Int.floor_mono
          nlinarith
  positivity

theorem round2_le_100 {x : ℚ} (hx : x ≤ 100) : round2 x ≤ 100 := by
  unfold round2
  have h : round (x * 100) ≤ (10000 : ℤ) := by
    rw [round_eq]
    have hfl : ⌊x * 100 + 1 / 2⌋ ≤ ⌊(10000 : ℚ) + 1 / 2⌋ := by
      apply Int.floor_mono
      nlinarith
    have : ⌊(10000 : ℚ) + 1 / 2⌋ = (10000 : ℤ) := by norm_num
    omega
  rw [div_le_iff₀ (by norm_num)]
  exact_mod_cast h

/-- C1: for `content_mentions ≥ 0`, `google_trends_score ∈ [0,100]` and any
velocity, `calculate_trend_score` equals the weighted rounded formula of the
specification and lies in `[0,100]`; moreover `calculate_trend_score 0 0 0 = 0`
and `calculate_trend_score 50 100 5 = 100`. -/
theorem calculate_trend_score_spec (m : ℤ) (g v : ℚ)
    (hm : 0 ≤ m) (hg0 : 0 ≤ g) (hg1 : g ≤ 100) :
    calculate_trend_score m g v = specTrendScore m g v ∧
    0 ≤ calculate_trend_score m g v ∧ calculate_trend_score m g v ≤ 100 ∧
    calculate_trend_score 0 0 0 = 0 ∧ calculate_trend_score 50 100 5 = 100 := by
  have hm' : (0 : ℚ) ≤ (m : ℚ) := by exact_mod_cast hm
  have h1a : (0 : ℚ) ≤ min ((m : ℚ) / 50 * 100) 100 :=
    le_min (by positivity) (by norm_num)
  have h1b : min ((m : ℚ) / 50 * 100) 100 ≤ 100 := min_le_right _ _
  have h2a : (0 : ℚ) ≤ (if v ≠ 0 then min (|v| / 5 * 100) 100 else 0) := by
    split
    · exact le_min (by positivity) (by norm_num)
    · exact le_refl 0
  have h2b : (if v ≠ 0 then min (|v| / 5 * 100) 100 else 0) ≤ 100 := by
    split
    · exact min_le_right _ _
    · norm_num
  refine ⟨?_, ?_, ?_, ?_, ?_⟩
  · unfold calculate_trend_score specTrendScore
    by_cases hv : v = 0
    · subst hv
      norm_num
      congr 1
      ring
    · simp only [hv, ne_eq, not_false_iff, if_true]
      congr 1
      ring
  · unfold calculate_trend_score
    apply round2_nonneg
    nlinarith
  · unfold calculate_trend_score
    apply round2_le_100
    nlinarith
  · unfold calculate_trend_score round2
    norm_num [round_eq]
  · unfold calculate_trend_score round2
    norm_num [round_eq]

/-- Witness for C1 at `content_mentions = 50`, `google = 100`, `velocity = 5`. -/
theorem calculate_trend_score_spec_witness :
    calculate_trend_score 50 100 5 = specTrendScore 50 100 5 ∧
    0 ≤ calculate_trend_score 50 100 5 ∧ calculate_trend_score 50 100 5 ≤ 100 ∧
    calculate_trend_score 0 0 0 = 0 ∧ calculate_trend_score 50 100 5 = 100 :=
  calculate_trend_score_spec 50 100 5 (by norm_num) (by norm_num) (by norm_num)

/-- A row of the `content` table, as used by the trend services (columns
`user_id`, `title`, `body`, `created_at`). -/
structure ContentItem where
  id : Nat
  user_id : Nat
  title : String
  body : String
  created_at : ℤ
deriving DecidableEq

/-- Python's `str.lower()` on the character sequence of a string. -/
def lowerStr (s : String) : List Char := s.data.map Char.toLower

/-- Python's substring test `pat in s` on character lists. -/
def infixCheck (pat : List Char) : List Char → Bool
  | [] => pat.isEmpty
  | c :: rest => pat.isPrefixOf (c :: rest) || infixCheck pat rest

/-- The mention test of `calculate_velocity`:
`keyword.lower() in f"{title} {body}".lower()`. -/
def containsKeyword (keyword : String) (it : ContentItem) : Bool :=
  infixCheck (lowerStr keyword) (lowerStr (it.title ++ " " ++ it.body))

/-- The query for content of the last 3 days
(`eq('user_id', ...) . gte('created_at', now - 3 days)`). -/
def recentWindowItems (now : ℤ) (content : List ContentItem) (user : Nat) :
    List ContentItem :=
  content.filter (fun it => it.user_id == user && decide (now - 3 ≤ it.created_at))

/-- The query for content of days 4-7
(`gte('created_at', now - 7 days) . lt('created_at', now - 3 days)`). -/
def olderWindowItems (now : ℤ) (content : List ContentItem) (user : Nat) :
    List ContentItem :=
  content.filter (fun it => it.user_id == user &&
    (decide (now - 7 ≤ it.created_at) && decide (it.created_at < now - 3)))

/-- `TrendService.calculate_velocity` (trend_service.py, lines 63-110): count
keyword mentions in the two windows and combine.  The `try/except` of the
source catches query failures; the fallible variant is modelled separately for
the orchestrator claims. -/
def calculate_velocity (now : ℤ) (content : List ContentItem) (user : Nat)
    (keyword : String) : ℚ :=
  let recent_mentions :=
    (recentWindowItems now content user).countP (containsKeyword keyword)
  let older_mentions :=
    (olderWindowItems now content user).countP (containsKeyword keyword)
  round2 (if older_mentions = 0 then
      (if 0 < recent_mentions then (recent_mentions : ℚ) else 0)
    else ((recent_mentions : ℚ) - (older_mentions : ℚ)) / (older_mentions : ℚ))

/-- Count of the owner's recent-window (last 3 days) items mentioning the
keyword, as the specification words it. -/
def specRecentCount (now : ℤ) (content : List ContentItem) (user : Nat)
    (keyword : String) : Nat :=
  content.countP (fun it => containsKeyword keyword it &&
    (it.user_id == user && decide (now - 3 ≤ it.created_at)))

/-- Count of the owner's prior-window (days 4-7) items mentioning the keyword,
as the specification words it. -/
def specPriorCount (now : ℤ) (content : List ContentItem) (user : Nat)
    (keyword : String) : Nat :=
  content.countP (fun it => containsKeyword keyword it &&
    (it.user_id == user &&
      (decide (now - 7 ≤ it.created_at) && decide (it.created_at < now - 3))))

/-- The velocity formula as the specification words it: `recent` when the prior
count is 0 and the recent count is positive, `0` when both are 0, and the
relative growth rate otherwise. -/
def specVelocityCore (recent prior : Nat) : ℚ :=
  if prior = 0 ∧ 0 < recent then (recent : ℚ)
  else if prior = 0 then 0
  else ((recent : ℚ) - (prior : ℚ)) / (prior : ℚ)

/-- Store with, for user 0 and keyword "x", 5 recent mentions and 0 prior
mentions (taking `now = 100`). -/
def velStoreA : List ContentItem :=
  [⟨1, 0, "x", "", 100⟩, ⟨2, 0, "x", "", 100⟩, ⟨3, 0, "x", "", 100⟩,
   ⟨4, 0, "x", "", 100⟩, ⟨5, 0, "x", "", 100⟩]

/-- Store with, for user 0 and keyword "x", 3 recent mentions and 6 prior
mentions (taking `now = 100`). -/
def velStoreC : List ContentItem :=
  [⟨1, 0, "x", "", 100⟩, ⟨2, 0, "x", "", 100⟩, ⟨3, 0, "x", "", 100⟩,
   ⟨4, 0, "x", "", 95⟩, ⟨5, 0, "x", "", 95⟩, ⟨6, 0, "x", "", 95⟩,
   ⟨7, 0, "x", "", 95⟩, ⟨8, 0, "x", "", 95⟩, ⟨9, 0, "x", "", 95⟩]

/-- Store with, for user 0 and keyword "x", 1 recent mention and 3 prior
mentions (taking `now = 100`). -/
def velStoreB : List ContentItem :=
  [⟨1, 0, "x", "", 100⟩, ⟨2, 0, "x", "", 95⟩, ⟨3, 0, "x", "", 95⟩, ⟨4, 0, "x", "", 95⟩]

theorem recentCount_eq (now : ℤ) (content : List ContentItem) (user : Nat)
    (keyword : String) :
    (recentWindowItems now content user).countP (containsKeyword keyword) =
      specRecentCount now content user keyword := by
  unfold recentWindowItems specRecentCount
  rw [List.countP_filter]

theorem priorCount_eq (now : ℤ) (content : List ContentItem) (user : Nat)
    (keyword : String) :
    (olderWindowItems now content user).countP (containsKeyword keyword) =
      specPriorCount now content user keyword := by
  unfold olderWindowItems specPriorCount
  rw [List.countP_filter]

/-- C2 (amended): `calculate_velocity` equals the specification's three-case
velocity formula applied to the recent/prior mention counts, but rounded to 2
decimals; `specVelocityCore 5 0 = 5` and `specVelocityCore 3 6 = -1/2`, and on
concrete stores realising those counts the code returns `5` and `-1/2`. -/
theorem calculate_velocity_spec (now : ℤ) (content : List ContentItem)
    (user : Nat) (keyword : String) :
    calculate_velocity now content user keyword =
      round2 (specVelocityCore (specRecentCount now content user keyword)
        (specPriorCount now content user keyword)) ∧
    specVelocityCore 5 0 = 5 ∧ specVelocityCore 3 6 = -(1/2) ∧
    calculate_velocity 100 velStoreA 0 "x" = 5 ∧
    calculate_velocity 100 velStoreC 0 "x" = -(1/2) := by
  refine ⟨?_, ?_, ?_, ?_, ?_⟩
  · unfold calculate_velocity
    rw [recentCount_eq, priorCount_eq]
    set r := specRecentCount now content user keyword
    set o := specPriorCount now content user keyword
    unfold specVelocityCore
    by_cases ho : o = 0 <;> by_cases hr : 0 < r <;> simp [ho, hr]
  · unfold specVelocityCore
    norm_num
  · unfold specVelocityCore
    norm_num
  · unfold calculate_velocity
    have h1 : (recentWindowItems 100 velStoreA 0).countP (containsKeyword "x") = 5 := by
      decide
    have h2 : (olderWindowItems 100 velStoreA 0).countP (containsKeyword "x") = 0 := by
      decide
    rw [h1, h2]
    norm_num [round2, round_eq]
  · unfold calculate_velocity
    have h1 : (recentWindowItems 100 velStoreC 0).countP (containsKeyword "x") = 3 := by
      decide
    have h2 : (olderWindowItems 100 velStoreC 0).countP (containsKeyword "x") = 6 := by
      decide
    rw [h1, h2]
    norm_num [round2, round_eq]

/-- C2 counterexample: with 1 recent and 3 prior mentions the code returns
`round((1-3)/3, 2) = -0.67`, not the unrounded `(1-3)/3 = -2/3` the claim
states. -/
theorem calculate_velocity_counterexample :
    calculate_velocity 100 velStoreB 0 "x" = -(67/100) ∧
    ((1 : ℚ) - 3) / 3 ≠ -(67/100) := by
  constructor
  · unfold calculate_velocity
    have h1 : (recentWindowItems 100 velStoreB 0).countP (containsKeyword "x") = 1 := by
      decide
    have h2 : (olderWindowItems 100 velStoreB 0).countP (containsKeyword "x") = 3 := by
      decide
    rw [h1, h2]
    norm_num [round2, round_eq]
  · norm_num

/-- A detected-trend dictionary as produced by `detect_trends` and consumed by
`save_trends`. -/
structure TrendData where
  keyword : String
  score : ℚ
  google_trends_score : ℚ
  content_mentions : Nat
  velocity : ℚ
  related_content_ids : List Nat
deriving DecidableEq

/-- A row of the `trends` table. -/
structure TrendRow where
  id : Nat
  user_id : Nat
  keyword : String
  score : ℚ
  google_trends_score : ℚ
  content_mentions : Nat
  velocity : ℚ
  related_content_ids : List Nat
  detected_at : ℤ
deriving DecidableEq

/-- The upsert key of the `trends` table: `(user_id, keyword)`. -/
def trendKey (r : TrendRow) : Nat × String := (r.user_id, r.keyword)

/-- State of the `trends` table during a `save_trends` run: the rows, the next
fresh row id the database would assign, and the `saved_count` accumulator. -/
structure TrendsState where
  table : List TrendRow
  nextId : Nat
  saved : Nat
deriving DecidableEq

/-- One iteration of the `save_trends` loop (trend_service.py, lines 198-228):
select rows matching `(user_id, keyword)`; update the row with the first
match's id if any exist, insert a fresh row otherwise. -/
def save_trends_step (user : Nat) (detected_at : ℤ) (st : TrendsState)
    (t : TrendData) : TrendsState :=
  match st.table.filter (fun r => r.user_id == user && r.keyword == t.keyword) with
  | [] =>
    { table := st.table ++
        [{ id := st.nextId
           user_id := user
           keyword := t.keyword
           score := t.score
           google_trends_score := t.google_trends_score
           content_mentions := t.content_mentions
           velocity := t.velocity
           related_content_ids := t.related_content_ids
           detected_at := detected_at }]
      nextId := st.nextId + 1
      saved := st.saved + 1 }
  | e :: _ =>
    { table := st.table.map (fun r => if r.id == e.id then
        { r with
          score := t.score
          google_trends_score := t.google_trends_score
          content_mentions := t.content_mentions
          velocity := t.velocity
          related_content_ids := t.related_content_ids
          detected_at := detected_at } else r)
      nextId := st.nextId
      saved := st.saved + 1 }

/-- `TrendService.save_trends` (trend_service.py, lines 179-237): fold the
per-trend upsert over the detected trends.  For `trends = []` the fold returns
the state unchanged with `saved = 0`, matching the early `return 0`. -/
def save_trends (user : Nat) (detected_at : ℤ) (trends : List TrendData)
    (table : List TrendRow) (nextId : Nat) : TrendsState :=
  trends.foldl (save_trends_step user detected_at) ⟨table, nextId, 0⟩

theorem save_trends_step_key_nodup (user : Nat) (detected_at : ℤ)
    (st : TrendsState) (t : TrendData)
    (h : (st.table.map trendKey).Nodup) :
    ((save_trends_step user detected_at st t).table.map trendKey).Nodup := by
  unfold save_trends_step
  split
  case _ heq =>
    simp only [List.map_append, List.map_cons, List.map_nil]
    rw [List.nodup_append]
    refine ⟨h, List.nodup_singleton _, ?_⟩
    intro k hk hk1
    simp only [List.mem_singleton] at hk1
    subst hk1
    rcases List.mem_map.mp hk with ⟨r, hr, hkey⟩
    have hnone := List.filter_eq_nil_iff.mp heq r hr
    simp only [Bool.and_eq_true, beq_iff_eq] at hnone
    unfold trendKey at hkey
    have h1 : r.user_id = user := (Prod.mk.injEq _ _ _ _ ▸ hkey).1
    have h2 : r.keyword = t.keyword := (Prod.mk.injEq _ _ _ _ ▸ hkey).2
    exact hnone ⟨h1, h2⟩
  case _ e rest heq =>
    have hmap : (st.table.map (fun r => if r.id == e.id then
        { r with
          score := t.score
          google_trends_score := t.google_trends_score
          content_mentions := t.content_mentions
          velocity := t.velocity
          related_content_ids := t.related_content_ids
          detected_at := detected_at } else r)).map trendKey =
        st.table.map trendKey := by
      rw [List.map_map]
      apply List.map_congr_left
      intro r _
      by_cases hid : (r.id == e.id) = true <;>
        simp [Function.comp, hid, trendKey]
    exact hmap ▸ h

theorem save_trends_key_nodup (user : Nat) (detected_at : ℤ)
    (trends : List TrendData) (table : List TrendRow) (nextId : Nat)
    (h : (table.map trendKey).Nodup) :
    ((save_trends user detected_at trends table nextId).table.map trendKey).Nodup := by
  unfold save_trends
  suffices hgen : ∀ (st : TrendsState), (st.table.map trendKey).Nodup →
      ((trends.foldl (save_trends_step user detected_at) st).table.map trendKey).Nodup by
    exact hgen ⟨table, nextId, 0⟩ h
  induction trends with
  | nil => intro st hst; exact hst
  | cons t ts ih =>
    intro st hst
    exact ih _ (save_trends_step_key_nodup user detected_at st t hst)

/-- C3: if the trends table has at most one row per `(owner, keyword)`, then
after `save_trends` it still does, and after a second immediate run (with any
trend list, timestamp and fresh-id counter) it still does: re-detection
updates rows in place and inserts only absent keywords, so no duplicates ever
arise. -/
theorem save_trends_no_duplicates (user : Nat) (det det' : ℤ)
    (trends trends' : List TrendData) (table : List TrendRow)
    (nextId nextId' : Nat)
    (h : (table.map trendKey).Nodup) :
    ((save_trends user det trends table nextId).table.map trendKey).Nodup ∧
    ((save_trends user det' trends'
        (save_trends user det trends table nextId).table
        nextId').table.map trendKey).Nodup := by
  have h1 := save_trends_key_nodup user det trends table nextId h
  exact ⟨h1, save_trends_key_nodup user det' trends' _ nextId' h1⟩

/-- Witness for C3: saving the same one-trend list twice into an empty table. -/
theorem save_trends_no_duplicates_witness :
    ((save_trends 7 0 [⟨"ai", 50, 40, 3, 1, [1]⟩] [] 0).table.map trendKey).Nodup ∧
    ((save_trends 7 1 [⟨"ai", 50, 40, 3, 1, [1]⟩]
        (save_trends 7 0 [⟨"ai", 50, 40, 3, 1, [1]⟩] [] 0).table
        1).table.map trendKey).Nodup :=
  save_trends_no_duplicates 7 0 1 [⟨"ai", 50, 40, 3, 1, [1]⟩]
    [⟨"ai", 50, 40, 3, 1, [1]⟩] [] 0 1 (by simp)

/-- Python's `\w` on the ASCII fragment the services handle: letters, digits
and underscore. -/
def isWordChar (c : Char) : Bool := c.isAlphanum || c == '_'

/-- A character of a plain keyword token: the regex class `[a-z]`. -/
def isPlainChar (c : Char) : Bool := 'a' ≤ c && c ≤ 'z'

/-- Python's `\S`: any non-whitespace character. -/
def notSpace (c : Char) : Bool := !c.isWhitespace

/-- Match of the regex alternative `http\S+` at the head of the list: the
literal `http` followed by at least one non-space character. -/
def matchHttp (l : List Char) : Bool :=
  match l with
  | 'h' :: 't' :: 't' :: 'p' :: d :: _ => notSpace d
  | _ => false

/-- Match of the regex alternative `www.\S+` at the head of the list: the
literal `www`, one arbitrary non-newline character (the unescaped dot), then
at least one non-space character. -/
def matchWww (l : List Char) : Bool :=
  match l with
  | 'w' :: 'w' :: 'w' :: d :: e :: _ => d != '\n' && notSpace e
  | _ => false

/-- The URL-removal pass `re.sub(r'http\S+|www.\S+', '', text)` of
`extract_keywords_from_text`, as a left-to-right scanner.  `fuel` is an upper
bound on the number of scanning steps (every step consumes at least one
character), making the recursion structural so that concrete inputs evaluate
in the kernel; `removeUrls` below instantiates it with the list length. -/
def removeUrlsFuel : Nat → List Char → List Char
  | 0, _ => []
  | fuel + 1, l =>
    match l with
    | [] => []
    | c :: rest =>
      if matchHttp (c :: rest) then
        removeUrlsFuel fuel (((c :: rest).drop 4).dropWhile notSpace)
      else if matchWww (c :: rest) then
        removeUrlsFuel fuel (((c :: rest).drop 4).dropWhile notSpace)
      else c :: removeUrlsFuel fuel rest

/-- URL removal at adequate fuel. -/
def removeUrls (l : List Char) : List Char := removeUrlsFuel l.length l

/-- The tokenizer `re.findall(r'#\w+|@\w+|\b[a-z]{m,}\b', text)` of
`extract_keywords_from_text` (keyword_extraction_service.py, line 60), as a
left-to-right scanner over an already-lowercased text.  `prevW` records
whether the previous character was a word character (the `\b` word-boundary
state); a plain `[a-z]` run is emitted only when it starts at a word boundary,
has length at least `minLen`, and ends at a word boundary (a maximal `[a-z]`
run followed by a digit or underscore admits no match anywhere inside, since
no interior position is a boundary, so the scanner skips the whole run).
`fuel` bounds the number of steps as in `removeUrlsFuel`. -/
def tokenizeFuel (minLen : Nat) : Nat → Bool → List Char → List (List Char)
  | 0, _, _ => []
  | fuel + 1, prevW, l =>
    match l with
    | [] => []
    | c :: rest =>
      if (c == '#' || c == '@') && rest.head?.any isWordChar then
        (c :: rest.takeWhile isWordChar) ::
          tokenizeFuel minLen fuel true (rest.dropWhile isWordChar)
      else if !prevW && isPlainChar c then
        if minLen ≤ (c :: rest.takeWhile isPlainChar).length &&
            !((rest.dropWhile isPlainChar).head?.any isWordChar) then
          (c :: rest.takeWhile isPlainChar) ::
            tokenizeFuel minLen fuel true (rest.dropWhile isPlainChar)
        else tokenizeFuel minLen fuel true (rest.dropWhile isPlainChar)
      else tokenizeFuel minLen fuel (isWordChar c) rest

/-- Tokenization at adequate fuel, starting at a word boundary. -/
def tokenize (minLen : Nat) (l : List Char) : List (List Char) :=
  tokenizeFuel minLen l.length false l

/-- The stop-word set of `KeywordExtractionService` (the `did` the source
lists twice collapses, as in a Python set literal). -/
def stop_words : List String :=
  ["the", "be", "to", "of", "and", "a", "in", "that", "have", "i",
   "it", "for", "not", "on", "with", "he", "as", "you", "do", "at",
   "this", "but", "his", "by", "from", "they", "we", "say", "her", "she",
   "or", "an", "will", "my", "one", "all", "would", "there", "their",
   "what", "so", "up", "out", "if", "about", "who", "get", "which", "go",
   "me", "when", "make", "can", "like", "time", "no", "just", "him", "know",
   "take", "people", "into", "year", "your", "good", "some", "could", "them",
   "see", "other", "than", "then", "now", "look", "only", "come", "its", "over",
   "think", "also", "back", "after", "use", "two", "how", "our", "work", "first",
   "well", "way", "even", "new", "want", "because", "any", "these", "give", "day",
   "most", "us", "is", "was", "are", "been", "has", "had", "were", "said", "did",
   "having", "may", "should", "am", "being", "does", "doing"]

/-- Python's `word.startswith('#') or word.startswith('@')`. -/
def isHashOrMention (w : String) : Bool :=
  w.data.head?.any (fun c => c == '#' || c == '@')

/-- First-occurrence deduplication: the key insertion order of a Python
`Counter`.  Fuel as in `removeUrlsFuel`. -/
def firstDedupFuel : Nat → List String → List String
  | 0, _ => []
  | fuel + 1, l =>
    match l with
    | [] => []
    | w :: rest => w :: firstDedupFuel fuel (rest.filter (fun x => x != w))

/-- First-occurrence deduplication at adequate fuel. -/
def firstDedup (l : List String) : List String := firstDedupFuel l.length l

/-- `Counter(keywords).most_common(...)`: the distinct keywords with their
counts, stably sorted by count descending (ties keep first-encounter order,
as CPython's `most_common` does). -/
def mostCommon (l : List String) : List (String × Nat) :=
  List.insertionSort (fun p q : String × Nat => q.2 ≤ p.2)
    ((firstDedup l).map (fun w => (w, l.count w)))

/-- The token list of a text after lowercasing and URL removal. -/
def textTokens (text : String) (minLen : Nat) : List String :=
  (tokenize minLen (removeUrls (text.data.map Char.toLower))).map String.mk

/-- `KeywordExtractionService.extract_keywords_from_text`
(keyword_extraction_service.py, lines 35-78): guard the falsy text, lowercase,
strip URLs, tokenize, filter stop words (keeping hashtags and mentions), count
frequencies and return the most common `maxKw` keywords.  The `try/except` of
the source is dead code over this pure pipeline. -/
def extract_keywords_from_text (text : String) (minLen : Nat) (maxKw : Nat) :
    List String :=
  if text.isEmpty then []
  else
    ((mostCommon ((textTokens text minLen).filter (fun w =>
        isHashOrMention w || !(decide (w ∈ stop_words))))).take maxKw).map
      (fun p => p.1)

theorem mem_firstDedupFuel {fuel : Nat} :
    ∀ {l : List String} {x : String}, x ∈ firstDedupFuel fuel l → x ∈ l := by
  induction fuel with
  | zero => intro l x h; simp [firstDedupFuel] at h
  | succ fuel ih =>
    intro l x h
    cases l with
    | nil => simp [firstDedupFuel] at h
    | cons w rest =>
      simp only [firstDedupFuel, List.mem_cons] at h ⊢
      rcases h with h | h
      · exact Or.inl h
      · exact Or.inr (List.mem_of_mem_filter (ih h))

theorem mem_of_mem_mostCommon {l : List String} {p : String × Nat}
    (h : p ∈ mostCommon l) : p.1 ∈ l := by
  unfold mostCommon at h
  rw [List.mem_insertionSort] at h
  rcases List.mem_map.mp h with ⟨w, hw, hwp⟩
  have : p.1 = w := by rw [← hwp]
  rw [this]
  exact mem_firstDedupFuel hw

theorem tokenizeFuel_plain_length (minLen : Nat) (fuel : Nat) :
    ∀ (b : Bool) (l : List Char), ∀ cs ∈ tokenizeFuel minLen fuel b l,
      (cs.head?.any (fun c => c == '#' || c == '@')) = true ∨ minLen ≤ cs.length := by
  induction fuel with
  | zero => intro b l cs h; simp [tokenizeFuel] at h
  | succ fuel ih =>
    intro b l cs h
    cases l with
    | nil => simp [tokenizeFuel] at h
    | cons c rest =>
      simp only [tokenizeFuel] at h
      by_cases h1 : ((c == '#' || c == '@') && rest.head?.any isWordChar) = true
      · rw [if_pos h1] at h
        rcases List.mem_cons.mp h with hcs | hcs
        · subst hcs
          left
          simp only [List.head?_cons, Option.any_some]
          have h1' := h1
          rw [Bool.and_eq_true] at h1'
          exact h1'.1
        · exact ih true _ cs hcs
      · rw [if_neg h1] at h
        by_cases h2 : (!b && isPlainChar c) = true
        · rw [if_pos h2] at h
          by_cases h3 : (decide (minLen ≤ (c :: rest.takeWhile isPlainChar).length) &&
              !((rest.dropWhile isPlainChar).head?.any isWordChar)) = true
          · rw [if_pos h3] at h
            rcases List.mem_cons.mp h with hcs | hcs
            · subst hcs
              right
              have h3' := h3
              rw [Bool.and_eq_true] at h3'
              exact of_decide_eq_true h3'.1
            · exact ih true _ cs hcs
          · rw [if_neg h3] at h
            exact ih true _ cs h
        · rw [if_neg h2] at h
          exact ih _ _ cs h

/-- C9: extraction with `min_length = 3` never returns a plain token (one not
starting with `#` or `@`) shorter than 3 characters. -/
theorem extract_keywords_min_length (text : String) (maxKw : Nat) :
    ∀ w ∈ extract_keywords_from_text text 3 maxKw,
      isHashOrMention w = false → 3 ≤ w.length := by
  intro w hw hplain
  unfold extract_keywords_from_text at hw
  by_cases he : text.isEmpty
  · rw [if_pos he] at hw
    simp at hw
  · rw [if_neg he] at hw
    rcases List.mem_map.mp hw with ⟨p, hp, hpw⟩
    have hp1 := List.mem_of_mem_take hp
    have hmem := mem_of_mem_mostCommon hp1
    have hmem2 := List.mem_of_mem_filter hmem
    rcases List.mem_map.mp hmem2 with ⟨cs, hcs, hcsw⟩
    rcases tokenizeFuel_plain_length 3 _ false _ cs hcs with hh | hl
    · exfalso
      have hw1 : isHashOrMention w = true := by
        rw [← hpw, ← hcsw]
        exact hh
      rw [hplain] at hw1
      exact Bool.false_ne_true hw1
    · have : w.length = cs.length := by rw [← hpw, ← hcsw]; rfl
      rw [this]
      exact hl

/-- Witness for C9 at the text `"hello"` and the returned keyword `"hello"`. -/
theorem extract_keywords_min_length_witness :
    "hello" ∈ extract_keywords_from_text "hello" 3 20 ∧ 3 ≤ "hello".length :=
  ⟨by decide, extract_keywords_min_length "hello" 20 "hello" (by decide) (by decide)⟩

theorem plain_char_not_hash {c : Char} (h : isPlainChar c = true) :
    (c == '#' || c == '@') = false := by
  unfold isPlainChar at h
  rw [Bool.and_eq_true] at h
  have ha : 'a' ≤ c := of_decide_eq_true h.1
  have h3 : c ≠ '#' := by
    intro hh
    subst hh
    exact absurd ha (by decide)
  have h4 : c ≠ '@' := by
    intro hh
    subst hh
    exact absurd ha (by decide)
  simp [h3, h4]

theorem tokenizeFuel_hash_tokens_eq (m m' : Nat) (fuel : Nat) :
    ∀ (b : Bool) (l : List Char),
      (tokenizeFuel m fuel b l).filter
        (fun cs => cs.head?.any (fun c => c == '#' || c == '@')) =
      (tokenizeFuel m' fuel b l).filter
        (fun cs => cs.head?.any (fun c => c == '#' || c == '@')) := by
  induction fuel with
  | zero => intro b l; simp [tokenizeFuel]
  | succ fuel ih =>
    intro b l
    cases l with
    | nil => simp [tokenizeFuel]
    | cons c rest =>
      simp only [tokenizeFuel]
      by_cases h1 : ((c == '#' || c == '@') && rest.head?.any isWordChar) = true
      · rw [if_pos h1, if_pos h1]
        have hhead : ((c :: rest.takeWhile isWordChar).head?.any
            (fun c => c == '#' || c == '@')) = true := by
          simp only [List.head?_cons, Option.any_some]
          have h1' := h1
          rw [Bool.and_eq_true] at h1'
          exact h1'.1
        simp only [List.filter_cons, hhead, if_true]
        rw [ih true (rest.dropWhile isWordChar)]
      · rw [if_neg h1, if_neg h1]
        by_cases h2 : (!b && isPlainChar c) = true
        · rw [if_pos h2, if_pos h2]
          have h2' := h2
          rw [Bool.and_eq_true] at h2'
          have hhead : ((c :: rest.takeWhile isPlainChar).head?.any
              (fun c => c == '#' || c == '@')) = false := by
            simp only [List.head?_cons, Option.any_some]
            exact plain_char_not_hash h2'.2
          have hrec := ih true (rest.dropWhile isPlainChar)
          by_cases h3 : (decide (m ≤ (c :: rest.takeWhile isPlainChar).length) &&
              !((rest.dropWhile isPlainChar).head?.any isWordChar)) = true
          · rw [if_pos h3]
            by_cases h3' : (decide (m' ≤ (c :: rest.takeWhile isPlainChar).length) &&
                !((rest.dropWhile isPlainChar).head?.any isWordChar)) = true
            · rw [if_pos h3']
              simp only [List.filter_cons, hhead]
              exact hrec
            · rw [if_neg h3']
              simp only [List.filter_cons, hhead]
              exact hrec
          · rw [if_neg h3]
            by_cases h3' : (decide (m' ≤ (c :: rest.takeWhile isPlainChar).length) &&
                !((rest.dropWhile isPlainChar).head?.any isWordChar)) = true
            · rw [if_pos h3']
              simp only [List.filter_cons, hhead]
              exact hrec
            · rw [if_neg h3']
              exact hrec
        · rw [if_neg h2, if_neg h2]
          exact ih (isWordChar c) rest

/-- C10: the hashtag and mention tokens the tokenizer returns do not depend on
`min_length` (so a hashtag or mention shorter than `min_length` still
appears); in particular `extract_keywords_from_text "#a" 3 20 = ["#a"]`. -/
theorem tokenize_hash_mention_any_length (text : String) (m m' : Nat) :
    (tokenize m (removeUrls (text.data.map Char.toLower))).filter
      (fun cs => cs.head?.any (fun c => c == '#' || c == '@')) =
    (tokenize m' (removeUrls (text.data.map Char.toLower))).filter
      (fun cs => cs.head?.any (fun c => c == '#' || c == '@')) ∧
    extract_keywords_from_text "#a" 3 20 = ["#a"] := by
  constructor
  · unfold tokenize
    exact tokenizeFuel_hash_tokens_eq m m' _ false _
  · decide

/-- C8: a text whose every token is a plain stop word extracts to the empty
list, and the empty (falsy) text extracts to the empty list; no error is
possible, the pipeline being total. -/
theorem extract_keywords_stop_words_empty (text : String) (maxKw : Nat)
    (h : ∀ w ∈ textTokens text 3, isHashOrMention w = false ∧ w ∈ stop_words) :
    extract_keywords_from_text text 3 maxKw = [] ∧
    extract_keywords_from_text "" 3 maxKw = [] := by
  constructor
  · unfold extract_keywords_from_text
    by_cases he : text.isEmpty
    · rw [if_pos he]
    · rw [if_neg he]
      have hfil : (textTokens text 3).filter (fun w =>
          isHashOrMention w || !(decide (w ∈ stop_words))) = [] := by
        apply List.filter_eq_nil_iff.mpr
        intro w hw
        rcases h w hw with ⟨h1, h2⟩
        simp [h1, h2]
      rw [hfil]
      simp [mostCommon, firstDedup, firstDedupFuel, List.insertionSort]
  · rfl

/-- Witness for C8 at the all-stop-words text `"the and was"`. -/
theorem extract_keywords_stop_words_empty_witness :
    extract_keywords_from_text "the and was" 3 20 = [] ∧
    extract_keywords_from_text "" 3 20 = [] :=
  extract_keywords_stop_words_empty "the and was" 20 (by decide)

/-- The descending score order used by `get_top_trends`
(`order('score', desc=True)`). -/
def scoreGe (a b : TrendRow) : Prop := b.score ≤ a.score

instance : DecidableRel scoreGe :=
  fun a b => inferInstanceAs (Decidable (b.score ≤ a.score))

instance : IsTotal TrendRow scoreGe := ⟨fun a b => le_total b.score a.score⟩

instance : IsTrans TrendRow scoreGe := ⟨fun _ _ _ h1 h2 => le_trans h2 h1⟩

/-- `TrendService.get_top_trends` (trend_service.py, lines 239-291): the
database query `eq('user_id', ...) . gte('detected_at', now - 7 days)
. order('score', desc=True) . limit(limit)` over the trends table.  The
per-row parsing of datetime strings and UUID lists is abstracted: rows are
already typed, so the `try/except continue` around parsing never fires. -/
def get_top_trends (now : ℤ) (table : List TrendRow) (user : Nat)
    (limit : Nat) : List TrendRow :=
  ((table.filter (fun r => r.user_id == user &&
      decide (now - 7 ≤ r.detected_at))).insertionSort scoreGe).take limit

/-- A stored trend scoring 72.3, detected inside the 7-day window. -/
def rowA723 : TrendRow := ⟨1, 7, "ai", 723/10, 0, 0, 0, [], 100⟩

/-- A stored trend scoring 45.0, detected inside the 7-day window. -/
def rowB45 : TrendRow := ⟨2, 7, "ml", 45, 0, 0, 0, [], 100⟩

/-- A stored trend scoring 99.0 but detected 20 days ago. -/
def rowOld99 : TrendRow := ⟨3, 7, "old", 99, 0, 0, 0, [], 80⟩

/-- C7: `get_top_trends` returns only rows of the given owner detected within
the trailing 7 days, sorted by score descending and truncated to `limit`; with
scores 72.3 and 45.0 in the window and `limit = 1` only the 72.3 row is
returned, and a 99.0 row detected 20 days ago is excluded even though its
score is the highest. -/
theorem get_top_trends_spec (now : ℤ) (table : List TrendRow)
    (user limit : Nat) :
    (∀ r ∈ get_top_trends now table user limit,
       r ∈ table ∧ r.user_id = user ∧ now - 7 ≤ r.detected_at) ∧
    List.Sorted scoreGe (get_top_trends now table user limit) ∧
    (get_top_trends now table user limit).length ≤ limit ∧
    get_top_trends 100 [rowB45, rowA723] 7 1 = [rowA723] ∧
    get_top_trends 100 [rowOld99, rowA723] 7 1 = [rowA723] := by
  refine ⟨?_, ?_, ?_, ?_, ?_⟩
  · intro r hr
    unfold get_top_trends at hr
    have h1 := List.mem_of_mem_take hr
    rw [List.mem_insertionSort] at h1
    rcases List.mem_filter.mp h1 with ⟨hmem, hpred⟩
    rw [Bool.and_eq_true] at hpred
    exact ⟨hmem, beq_iff_eq.mp hpred.1, of_decide_eq_true hpred.2⟩
  · unfold get_top_trends
    exact List.Pairwise.sublist (List.take_sublist _ _)
      (List.sorted_insertionSort scoreGe _)
  · unfold get_top_trends
    exact List.length_take_le _ _
  · norm_num [get_top_trends, rowA723, rowB45, scoreGe,
      List.insertionSort, List.orderedInsert, List.filter]
  · norm_num [get_top_trends, rowA723, rowOld99, scoreGe,
      List.insertionSort, List.orderedInsert, List.filter]

/-- Python's `try: return body except: return d`. -/
def pytry {α : Type} (body : Except String α) (d : α) : α :=
  match body with
  | .ok a => a
  | .error _ => d

/-- The fallible primitives the services call: each field is the result of one
external interaction (a Supabase query or write, or a pytrends fetch), either
a value or a raised exception.  Quantifying over `Env` quantifies over every
combination of stage failures. -/
structure Env where
  contentQuery : Except String (List ContentItem)
  recentQuery : Except String (List ContentItem)
  olderQuery : Except String (List ContentItem)
  provider : List String → Except String (List (String × ℚ))
  existingQuery : String → Except String (List Nat)
  updateResult : Nat → Except String Unit
  insertResult : String → Except String Unit
  topQuery : Except String (List TrendRow)

/-- The text assembled from a content row by `extract_keywords_from_content`:
`title + " "` when the title is truthy, then the body. -/
def itemText (it : ContentItem) : String :=
  (if it.title.isEmpty then "" else it.title ++ " ") ++ it.body

/-- One `keyword_content_map` insertion: append the content id to the
keyword's list, creating the entry on first sight (Python dict insertion
order). -/
def addKeywordId (m : List (String × List Nat)) (kw : String) (cid : Nat) :
    List (String × List Nat) :=
  if m.any (fun p => p.1 == kw) then
    m.map (fun p => if p.1 == kw then (p.1, p.2 ++ [cid]) else p)
  else m ++ [(kw, [cid])]

/-- The `keyword_content_map` loop of `extract_keywords_from_content`. -/
def keywordContentMap (items : List ContentItem) : List (String × List Nat) :=
  items.foldl (fun m it =>
    (extract_keywords_from_text (itemText it) 3 20).foldl
      (fun m kw => addKeywordId m kw it.id) m) []

/-- The pure tail of `extract_keywords_from_content`
(keyword_extraction_service.py, lines 80-137): keep keywords with at least 2
mentions (count taken before deduplicating the content ids) and sort by
mention count descending. -/
def trendingKeywordsOfItems (items : List ContentItem) :
    List (String × Nat × List Nat) :=
  ((keywordContentMap items).filterMap (fun p =>
      if 2 ≤ p.2.length then some (p.1, p.2.length, p.2.dedup) else none)
    ).insertionSort (fun a b => b.2.1 ≤ a.2.1)

/-- `KeywordExtractionService.extract_keywords_from_content`: run the content
query for the trailing 7 days and process it; the `try/except` converts a
query failure into `[]`.  (An empty query result also yields `[]`, as the
early `return []` of the source does.) -/
def extract_keywords_from_content (env : Env) : List (String × Nat × List Nat) :=
  pytry (do
    let items ← env.contentQuery
    pure (trendingKeywordsOfItems items)) []

/-- The per-keyword score of a fetched interest dataframe: `0` for an empty
frame or a missing column, otherwise the column mean rounded to 2 decimals. -/
def giotValue (df : List (String × ℚ)) (kw : String) : ℚ :=
  if df.isEmpty then 0
  else
    match df.lookup kw with
    | some v => round2 v
    | none => 0

/-- `GoogleTrendsService.get_interest_over_time` (google_trends_service.py,
lines 27-75): truncate to 5 keywords, fetch, and map each keyword to its
score; the `try/except` maps every (truncated) keyword to `0.0` on provider
failure, and an empty keyword list short-circuits to `{}`. -/
def get_interest_over_time (env : Env) (keywords : List String) :
    List (String × ℚ) :=
  pytry (do
    if keywords.isEmpty then pure []
    else
      let kws := keywords.take 5
      let df ← env.provider kws
      pure (kws.map (fun kw => (kw, giotValue df kw))))
    ((keywords.take 5).map (fun kw => (kw, 0)))

/-- The batching `range(0, len(keywords), 5)` of `batch_get_interest`, with
fuel as in `removeUrlsFuel`. -/
def chunks5Fuel : Nat → List String → List (List String)
  | 0, _ => []
  | _ + 1, [] => []
  | fuel + 1, a :: rest => (a :: rest.take 4) :: chunks5Fuel fuel (rest.drop 4)

/-- Batching at adequate fuel. -/
def chunks5 (l : List String) : List (List String) := chunks5Fuel l.length l

/-- A Python dict as a lookup function; `dictUpdate` is `dict.update`, the new
entries taking precedence. -/
def dictUpdate (acc : String → Option ℚ) (entries : List (String × ℚ)) :
    String → Option ℚ :=
  fun k =>
    match entries.lookup k with
    | some v => some v
    | none => acc k

/-- The batch loop of `batch_get_interest`, updating the result dict with one
batch at a time (the inter-batch `time.sleep(2)` has no observable effect
here). -/
def bgiAux (env : Env) : List (List String) → (String → Option ℚ) →
    (String → Option ℚ)
  | [], acc => acc
  | b :: bs, acc => bgiAux env bs (dictUpdate acc (get_interest_over_time env b))

/-- `GoogleTrendsService.batch_get_interest` (google_trends_service.py, lines
147-178): batch into groups of 5 and accumulate; the leading falsy check
returns `{}`, and the outer `try/except` is dead code since
`get_interest_over_time` already catches every provider failure. -/
def batch_get_interest (env : Env) (keywords : List String) :
    String → Option ℚ :=
  if keywords.isEmpty then fun _ => none
  else bgiAux env (chunks5 keywords) (fun _ => none)

theorem chunks5Fuel_flatten : ∀ (fuel : Nat) (l : List String),
    l.length ≤ fuel → (chunks5Fuel fuel l).flatten = l := by
  intro fuel
  induction fuel with
  | zero =>
    intro l h
    have hl : l = [] := List.eq_nil_of_length_eq_zero (Nat.le_zero.mp h)
    subst hl
    rfl
  | succ fuel ih =>
    intro l h
    cases l with
    | nil => rfl
    | cons a rest =>
      simp only [chunks5Fuel, List.flatten_cons]
      rw [ih (rest.drop 4) (by
        simp only [List.length_drop]
        simp only [List.length_cons] at h
        omega)]
      rw [List.cons_append, List.take_append_drop]

theorem chunks5Fuel_le5 : ∀ (fuel : Nat) (l : List String),
    ∀ b ∈ chunks5Fuel fuel l, b.length ≤ 5 := by
  intro fuel
  induction fuel with
  | zero => intro l b hb; simp [chunks5Fuel] at hb
  | succ fuel ih =>
    intro l b hb
    cases l with
    | nil => simp [chunks5Fuel] at hb
    | cons a rest =>
      simp only [chunks5Fuel, List.mem_cons] at hb
      rcases hb with hb | hb
      · subst hb
        simp only [List.length_cons, List.length_take]
        omega
      · exact ih _ b hb

theorem lookup_map_fn (f : String → ℚ) (kw : String) :
    ∀ (b : List String), kw ∈ b →
      (b.map (fun k => (k, f k))).lookup kw = some (f kw) := by
  intro b
  induction b with
  | nil => intro h; simp at h
  | cons a rest ih =>
    intro h
    by_cases hak : kw = a
    · subst hak
      simp [List.lookup]
    · have hbeq : (kw == a) = false := beq_eq_false_iff_ne.mpr hak
      simp only [List.map_cons, List.lookup, hbeq]
      apply ih
      rcases List.mem_cons.mp h with h1 | h1
      · exact absurd h1 hak
      · exact h1

theorem lookup_map_fn_none (f : String → ℚ) (kw : String) :
    ∀ (b : List String), kw ∉ b →
      (b.map (fun k => (k, f k))).lookup kw = none := by
  intro b
  induction b with
  | nil => intro _; rfl
  | cons a rest ih =>
    intro h
    have hak : kw ≠ a := fun hh => h (hh ▸ List.mem_cons_self a rest)
    have hbeq : (kw == a) = false := beq_eq_false_iff_ne.mpr hak
    simp only [List.map_cons, List.lookup, hbeq]
    exact ih (fun hh => h (List.mem_cons_of_mem a hh))

theorem pytry_bind_error {α β : Type} (e : String) (f : α → Except String β)
    (d : β) : pytry (Except.error e >>= f) d = d := rfl

theorem pytry_bind_ok {α β : Type} (a : α) (f : α → Except String β) (d : β) :
    pytry (Except.ok a >>= f) d = pytry (f a) d := rfl

theorem pytry_pure {α : Type} (a d : α) :
    pytry ((pure a : Except String α)) d = a := rfl

theorem giot_lookup (env : Env) (b : List String) (kw : String)
    (hkw : kw ∈ b) (hlen : b.length ≤ 5) :
    (get_interest_over_time env b).lookup kw =
      some (match env.provider b with
        | .error _ => 0
        | .ok df => giotValue df kw) := by
  unfold get_interest_over_time
  have hne : b.isEmpty = false := by
    cases b with
    | nil => simp at hkw
    | cons a rest => rfl
  have htake : b.take 5 = b := List.take_of_length_le hlen
  rw [if_neg (by simp [hne]), htake]
  cases hp : env.provider b with
  | error e =>
    simp only [hp]
    simpa [pytry_bind_error] using lookup_map_fn (fun _ => (0 : ℚ)) kw b hkw
  | ok df =>
    simp only [hp]
    simpa [pytry_bind_ok, pytry_pure] using
      lookup_map_fn (fun k => giotValue df k) kw b hkw

theorem giot_lookup_none (env : Env) (b : List String) (kw : String)
    (h : kw ∉ b) :
    (get_interest_over_time env b).lookup kw = none := by
  unfold get_interest_over_time
  by_cases hne : b.isEmpty = true
  · have hb : b = [] := by
      cases b with
      | nil => rfl
      | cons a rest => simp at hne
    subst hb
    rfl
  · rw [if_neg hne]
    have hsub : kw ∉ b.take 5 := fun hmem => h (List.mem_of_mem_take hmem)
    cases hp : env.provider (b.take 5) with
    | error e =>
      simp only [hp]
      simpa [pytry_bind_error] using
        lookup_map_fn_none (fun _ => (0 : ℚ)) kw (b.take 5) hsub
    | ok df =>
      simp only [hp]
      simpa [pytry_bind_ok, pytry_pure] using
        lookup_map_fn_none (fun k => giotValue df k) kw (b.take 5) hsub

theorem bgiAux_not_mem (env : Env) :
    ∀ (bs : List (List String)) (acc : String → Option ℚ) (kw : String),
      (∀ b ∈ bs, kw ∉ b) → bgiAux env bs acc kw = acc kw := by
  intro bs
  induction bs with
  | nil => intro acc kw _; rfl
  | cons b bs ih =>
    intro acc kw h
    simp only [bgiAux]
    rw [ih _ kw (fun b' hb' => h b' (List.mem_cons_of_mem _ hb'))]
    unfold dictUpdate
    rw [giot_lookup_none env b kw (h b (List.mem_cons_self _ _))]

theorem bgiAux_eval (env : Env) :
    ∀ (bs : List (List String)) (acc : String → Option ℚ) (b : List String)
      (kw : String), b ∈ bs → kw ∈ b → List.Pairwise List.Disjoint bs →
      (∀ b' ∈ bs, b'.length ≤ 5) →
      bgiAux env bs acc kw =
        some (match env.provider b with
          | .error _ => 0
          | .ok df => giotValue df kw) := by
  intro bs
  induction bs with
  | nil => intro acc b kw hb; simp at hb
  | cons b0 bs ih =>
    intro acc b kw hb hkw hdisj hlen
    simp only [bgiAux]
    rcases List.mem_cons.mp hb with rfl | hb'
    · have hnot : ∀ b' ∈ bs, kw ∉ b' := by
        intro b' hb' hkw'
        exact (List.pairwise_cons.mp hdisj).1 b' hb' hkw hkw'
      rw [bgiAux_not_mem env bs _ kw hnot]
      unfold dictUpdate
      rw [giot_lookup env b kw hkw (hlen b (List.mem_cons_self _ _))]
    · exact ih _ b kw hb' hkw (List.pairwise_cons.mp hdisj).2
        (fun b' h' => hlen b' (List.mem_cons_of_mem _ h'))

/-- C6: `batch_get_interest` splits the keywords into consecutive batches of
at most 5; for distinct keywords, a keyword whose batch's provider call fails
maps to 0, and a keyword whose batch's provider call succeeds maps to its
fetched (per-dataframe) score; the mapping is total over the call (every
failure is caught per batch). -/
theorem batch_get_interest_spec (env : Env) (keywords : List String) :
    (∀ b ∈ chunks5 keywords, b.length ≤ 5) ∧
    (chunks5 keywords).flatten = keywords ∧
    (∀ b ∈ chunks5 keywords, ∀ kw ∈ b, keywords.Nodup →
      (∀ e, env.provider b = .error e →
        batch_get_interest env keywords kw = some 0) ∧
      (∀ df, env.provider b = .ok df →
        batch_get_interest env keywords kw = some (giotValue df kw))) := by
  have hflat : (chunks5 keywords).flatten = keywords :=
    chunks5Fuel_flatten _ _ (le_refl _)
  refine ⟨fun b hb => chunks5Fuel_le5 _ _ b hb, hflat, ?_⟩
  intro b hb kw hkw hnd
  have hne : keywords.isEmpty = false := by
    cases hk : keywords with
    | nil =>
      subst hk
      simp [chunks5, chunks5Fuel] at hb
    | cons a rest => rfl
  have hfl2 : (List.flatten (chunks5 keywords)).Nodup := by
    rw [hflat]
    exact hnd
  have hdisj : List.Pairwise List.Disjoint (chunks5 keywords) :=
    (List.nodup_flatten.mp hfl2).2
  have hlen : ∀ b' ∈ chunks5 keywords, b'.length ≤ 5 :=
    fun b' h' => chunks5Fuel_le5 _ _ b' h'
  have heval := bgiAux_eval env (chunks5 keywords) (fun _ => none) b kw hb hkw
    hdisj hlen
  constructor
  · intro e he
    unfold batch_get_interest
    rw [if_neg (by simp [hne]), heval, he]
  · intro df hdf
    unfold batch_get_interest
    rw [if_neg (by simp [hne]), heval, hdf]

/-- An environment whose provider fails exactly on the batch `["k6"]`. -/
def envW : Env :=
  { contentQuery := .ok []
    recentQuery := .ok []
    olderQuery := .ok []
    provider := fun b => if b = ["k6"] then .error "boom" else .ok [("k1", 30)]
    existingQuery := fun _ => .ok []
    updateResult := fun _ => .ok ()
    insertResult := fun _ => .ok ()
    topQuery := .ok [] }

/-- Witness for C6: six keywords form batches of 5 and 1; the failing second
batch maps `"k6"` to 0 while `"k1"` of the succeeding first batch keeps its
fetched score. -/
theorem batch_get_interest_spec_witness :
    batch_get_interest envW ["k1", "k2", "k3", "k4", "k5", "k6"] "k6" = some 0 ∧
    batch_get_interest envW ["k1", "k2", "k3", "k4", "k5", "k6"] "k1" =
      some (giotValue [("k1", 30)] "k1") := by
  constructor
  · exact ((batch_get_interest_spec envW
      ["k1", "k2", "k3", "k4", "k5", "k6"]).2.2
      ["k6"] (by decide) "k6" (by decide) (by decide)).1 "boom" rfl
  · exact ((batch_get_interest_spec envW
      ["k1", "k2", "k3", "k4", "k5", "k6"]).2.2
      ["k1", "k2", "k3", "k4", "k5"] (by decide) "k1" (by decide) (by decide)).2
      [("k1", 30)] rfl

/-- `TrendService.calculate_velocity` over the fallible environment: the
window-query results come from `env`, and the `try/except` converts any query
failure into `0.0`.  (The window predicates of the two queries are verified
against `calculate_velocity` in the pure model above.) -/
def calculate_velocity_env (env : Env) (keyword : String) : ℚ :=
  pytry (do
    let recent ← env.recentQuery
    let older ← env.olderQuery
    let recent_mentions := recent.countP (containsKeyword keyword)
    let older_mentions := older.countP (containsKeyword keyword)
    pure (round2 (if older_mentions = 0 then
        (if 0 < recent_mentions then (recent_mentions : ℚ) else 0)
      else ((recent_mentions : ℚ) - (older_mentions : ℚ)) /
        (older_mentions : ℚ)))) 0

/-- The body of `TrendService.detect_trends` (trend_service.py, lines
112-177), inside its `try`: extract trending keywords, fetch Google scores for
the first 20, score each candidate, sort by score descending and keep the top
`max_trends`. -/
def detect_trends_body (env : Env) (max_trends : Nat) :
    Except String (List TrendData) := do
  let trending := extract_keywords_from_content env
  if trending.isEmpty then pure []
  else
    let top_keywords := (trending.take (max_trends * 2)).map (fun t => t.1)
    let google_scores := batch_get_interest env (top_keywords.take 20)
    let trends := (trending.take (max_trends * 2)).map (fun t =>
      ({ keyword := t.1
         score := calculate_trend_score (t.2.1 : ℤ)
           ((google_scores t.1).getD 0) (calculate_velocity_env env t.1)
         google_trends_score := (google_scores t.1).getD 0
         content_mentions := t.2.1
         velocity := calculate_velocity_env env t.1
         related_content_ids := t.2.2 } : TrendData))
    pure ((trends.insertionSort (fun a b => b.score ≤ a.score)).take max_trends)

/-- `TrendService.detect_trends`: the body under its catch-all, which returns
`[]` on any error. -/
def detect_trends (env : Env) (max_trends : Nat) : List TrendData :=
  pytry (detect_trends_body env max_trends) []

/-- `TrendService.save_trends` over the fallible environment (the pure
state-level model is `save_trends` above): each loop iteration selects the
existing row, updates or inserts, and counts; its inner `try/except continue`
keeps the current count on failure, and the outer one returns 0. -/
def save_trends_env (env : Env) (trends : List TrendData) : Nat :=
  pytry (do
    if trends.isEmpty then pure 0
    else
      pure (trends.foldl (fun saved t =>
        pytry (do
          let existing ← env.existingQuery t.keyword
          match existing with
          | [] => do
            let _ ← env.insertResult t.keyword
            pure (saved + 1)
          | i :: _ => do
            let _ ← env.updateResult i
            pure (saved + 1)) saved) 0)) 0

/-- `TrendService.get_top_trends` over the fallible environment: the filtered,
ordered, limited rows come back from `env.topQuery` (that query's semantics is
the pure `get_top_trends` above); the `try/except` returns `[]` on failure. -/
def get_top_trends_env (env : Env) : List TrendRow :=
  pytry (do
    let rows ← env.topQuery
    pure rows) []

/-- The result dictionary of `detect_and_save_trends`. -/
structure DetectSummary where
  detected : Nat
  saved : Nat
  top_3 : List (String × ℚ)
deriving DecidableEq

/-- The body of `TrendService.detect_and_save_trends` (trend_service.py,
lines 345-384), inside its `try`: detect, early-return the zero summary when
nothing was detected, otherwise save, read back the top 3 and summarise. -/
def detect_and_save_trends_body (env : Env) : Except String DetectSummary := do
  let trends := detect_trends env 10
  if trends.isEmpty then pure ⟨0, 0, []⟩
  else
    let saved := save_trends_env env trends
    let top3 := get_top_trends_env env
    pure ⟨trends.length, saved, top3.map (fun t => (t.keyword, t.score))⟩

/-- `TrendService.detect_and_save_trends`: the body under its catch-all. -/
def detect_and_save_trends (env : Env) : DetectSummary :=
  pytry (detect_and_save_trends_body env) ⟨0, 0, []⟩

/-- C4: whatever the outcome of every fallible primitive (extraction query,
provider fetches, velocity queries, persistence reads and writes), the body of
`detect_and_save_trends` raises nothing: it returns `ok` with a summary
(integer `detected`, integer `saved`, a `top_3` list), which the function
returns unchanged. -/
theorem detect_and_save_trends_total (env : Env) :
    ∃ s : DetectSummary, detect_and_save_trends_body env = Except.ok s ∧
      detect_and_save_trends env = s := by
  by_cases h : (detect_trends env 10).isEmpty = true
  · refine ⟨⟨0, 0, []⟩, ?_, ?_⟩
    · simp only [detect_and_save_trends_body, h, if_true]
      rfl
    · simp only [detect_and_save_trends, detect_and_save_trends_body, h,
        if_true]
      rfl
  · refine ⟨⟨(detect_trends env 10).length, save_trends_env env
      (detect_trends env 10),
      (get_top_trends_env env).map (fun t => (t.keyword, t.score))⟩, ?_, ?_⟩
    · simp only [detect_and_save_trends_body, h, if_false]
      rfl
    · simp only [detect_and_save_trends, detect_and_save_trends_body, h,
        if_false]
      rfl

/-- An environment whose content store is unreachable for the initial
extraction query. -/
def envDown : Env :=
  { contentQuery := .error "content store unreachable"
    recentQuery := .ok []
    olderQuery := .ok []
    provider := fun _ => .ok []
    existingQuery := fun _ => .ok []
    updateResult := fun _ => .ok ()
    insertResult := fun _ => .ok ()
    topQuery := .ok [] }

/-- C5 counterexample: when the content-store query of the initial extraction
step fails, no exception reaches the caller of `detect_and_save_trends` — the
failure is caught inside `extract_keywords_from_content` (which returns `[]`)
and the orchestrator's body returns `ok {detected: 0, saved: 0, top_3: []}`,
contradicting the claimed hard-failure propagation. -/
theorem content_failure_counterexample :
    extract_keywords_from_content envDown = [] ∧
    detect_and_save_trends_body envDown = Except.ok ⟨0, 0, []⟩ ∧
    detect_and_save_trends envDown = ⟨0, 0, []⟩ :=
  ⟨rfl, rfl, rfl⟩

/-- C5 (amended): a failing content-store query in the initial extraction step
is caught locally — `extract_keywords_from_content` returns `[]` — and
`detect_and_save_trends` returns the zero summary instead of raising. -/
theorem content_failure_degrades (env : Env) (e : String)
    (h : env.contentQuery = Except.error e) :
    extract_keywords_from_content env = [] ∧
    detect_and_save_trends_body env = Except.ok ⟨0, 0, []⟩ ∧
    detect_and_save_trends env = ⟨0, 0, []⟩ := by
  have hextract : extract_keywords_from_content env = [] := by
    unfold extract_keywords_from_content
    simp only [h]
    rfl
  have hdet : detect_trends env 10 = [] := by
    unfold detect_trends detect_trends_body
    rw [hextract]
    rfl
  have hbody : detect_and_save_trends_body env = Except.ok ⟨0, 0, []⟩ := by
    unfold detect_and_save_trends_body
    rw [hdet]
    rfl
  refine ⟨hextract, hbody, ?_⟩
  unfold detect_and_save_trends
  rw [hbody]
  rfl

/-- Witness for the amended C5 at the concrete unreachable-store environment. -/
theorem content_failure_degrades_witness :
    extract_keywords_from_content envDown = [] ∧
    detect_and_save_trends_body envDown = Except.ok ⟨0, 0, []⟩ ∧
    detect_and_save_trends envDown = ⟨0, 0, []⟩ :=
  content_failure_degrades envDown "content store unreachable" rfl

/-- Witness for C7: the returned 72.3-row is a stored row of owner 7 inside
the 7-day window. -/
theorem get_top_trends_spec_witness :
    rowA723 ∈ [rowB45, rowA723] ∧ rowA723.user_id = 7 ∧
      (100 : ℤ) - 7 ≤ rowA723.detected_at :=
  (get_top_trends_spec 100 [rowB45, rowA723] 7 1).1 rowA723
    (by
      rw [(get_top_trends_spec 100 [rowB45, rowA723] 7 1).2.2.2.1]
      exact List.mem_singleton.mpr rfl)
